import Mathlib

/-!
Verification of the notes + drawing application (`src/main.py`).

The development shallowly embeds the two stateful components the claims
are about:

* the math auto-evaluator `MainWindow.autoEvaluateTypedMath`, modelled as a
  pure function from the editor state (text, cursor, signal-blocking flag)
  to a trace of primitive editor operations, which is then executed;
  the external symbolic-math library call `sympy.sympify` is an abstract
  parameter `sympify : List Char → Option (List Char)` (`none` models the
  exception path caught by the `try/except` block);
* the drawing surface `CanvasWidget`, modelled as a record of its fields
  with one transition function per event handler; the toolkit's raster
  line-drawing primitive (`QPainter.drawLine`) is an abstract parameter.

Python strings are modelled as `List Char`; `str.split('\n')` is
`List.splitOn '\n'`, `'\n'.join` is `List.intercalate ['\n']`,
`s[:-1]` is `List.dropLast`, and `str.strip()` drops the Python
whitespace characters from both ends.
-/

/-! ### Python string primitives -/

/-- The characters removed by Python's `str.strip()` (ASCII whitespace). -/
def pyIsSpace (c : Char) : Bool :=
  c = ' ' || c = '\t' || c = '\n' || c = '\r' || c = '\x0b' || c = '\x0c'

/-- Python `s.strip()`: remove leading and trailing whitespace. -/
def pyStrip (s : List Char) : List Char :=
  ((s.dropWhile pyIsSpace).reverse.dropWhile pyIsSpace).reverse

/-- Python `s.endswith('=')`. -/
def pyEndsWithEq (s : List Char) : Bool :=
  s.getLast? == some '='

/-! ### The notes editor and the auto-evaluator -/

/-- State of the `QPlainTextEdit` notes editor: its plain text, the cursor
position, and whether its change signals are currently blocked. -/
structure EditorState where
  text : List Char
  cursor : Nat
  blocked : Bool
deriving DecidableEq

/-- The primitive editor operations `autoEvaluateTypedMath` performs. -/
inductive EditorOp where
  | blockSignals (b : Bool)
  | setPlainText (s : List Char)
  | moveCursorEnd
deriving DecidableEq

/-- Effect of one editor operation.  `setPlainText` replaces the text (the
widget resets the cursor); `moveCursorEnd` moves the cursor to the end of
the current text. -/
def applyOp (st : EditorState) : EditorOp → EditorState
  | EditorOp.blockSignals b => { st with blocked := b }
  | EditorOp.setPlainText s => { st with text := s, cursor := 0 }
  | EditorOp.moveCursorEnd => { st with cursor := st.text.length }

/-- Run a list of editor operations in order. -/
def applyOps (st : EditorState) (ops : List EditorOp) : EditorState :=
  ops.foldl applyOp st

/-- The body of `MainWindow.autoEvaluateTypedMath` between the two
`blockSignals` calls, as the list of editor operations it performs:
split the text into lines, look at the last line; if it ends with `=`,
strip the trailing `=` and surrounding whitespace; if the expression is
non-empty, try `sympy.sympify`; on success replace the last line with
`expr=result` and move the cursor to the end; on failure (`none`) the
`except` clause does nothing. -/
def autoEvalBody (sympify : List Char → Option (List Char)) (text : List Char) :
    List EditorOp :=
  let lines := text.splitOn '\n'
  match lines.getLast? with
  | none => []
  | some last_line =>
    if pyEndsWithEq last_line then
      let expr := pyStrip last_line.dropLast
      if expr.isEmpty then []
      else
        match sympify expr with
        | some result =>
          [EditorOp.setPlainText
              (List.intercalate ['\n'] (lines.dropLast ++ [expr ++ '=' :: result])),
           EditorOp.moveCursorEnd]
        | none => []
    else []

/-- The full operation trace of `autoEvaluateTypedMath`: block signals,
run the body, unblock signals. -/
def autoEvalOps (sympify : List Char → Option (List Char)) (text : List Char) :
    List EditorOp :=
  EditorOp.blockSignals true :: (autoEvalBody sympify text ++ [EditorOp.blockSignals false])

/-- `MainWindow.autoEvaluateTypedMath` as a state transformer on the notes
editor. -/
def autoEvaluateTypedMath (sympify : List Char → Option (List Char))
    (st : EditorState) : EditorState :=
  applyOps st (autoEvalOps sympify st.text)

/-! ### The drawing surface `CanvasWidget` -/

/-- An RGBA color; `QColor(r, g, b)` defaults the alpha channel to 255. -/
structure QColor where
  red : Nat
  green : Nat
  blue : Nat
  alpha : Nat
deriving DecidableEq

/-- `QColor(r, g, b)` with the default opaque alpha. -/
def qcolorRGB (r g b : Nat) : QColor := ⟨r, g, b, 255⟩

/-- `Qt.white`. -/
def qtWhite : QColor := ⟨255, 255, 255, 255⟩

/-- An integer pixel position; `QPoint()` defaults to the origin. -/
structure QPoint where
  x : Int
  y : Int
deriving DecidableEq

/-- The pixel buffer of a `QImage`, as a function from positions to colors. -/
def QImage := QPoint → QColor

/-- `QImage.fill(c)`: every pixel becomes `c`. -/
def fillImage (c : QColor) : QImage := fun _ => c

inductive PenStyle where
  | solidLine
  | dashLine
deriving DecidableEq

inductive PenCapStyle where
  | flatCap
  | squareCap
  | roundCap
deriving DecidableEq

inductive PenJoinStyle where
  | miterJoin
  | bevelJoin
  | roundJoin
deriving DecidableEq

/-- `QPen(color, width, style, cap, join)`. -/
structure QPen where
  color : QColor
  width : Nat
  style : PenStyle
  cap : PenCapStyle
  join : PenJoinStyle
deriving DecidableEq

/-- The toolkit's raster line-stroking primitive
(`QPainter.drawLine` with a pen set): kept abstract, since its pixel-level
behavior belongs to Qt, not to this repository. -/
def DrawLine := QImage → QPen → QPoint → QPoint → QImage

inductive MouseButton where
  | left
  | right
  | middle
deriving DecidableEq

/-- The parts of a Qt mouse event the handlers look at: `event.button()`,
whether `event.buttons() & Qt.LeftButton` is non-zero, and `event.pos()`. -/
structure MouseEvent where
  button : MouseButton
  leftHeld : Bool
  pos : QPoint

/-- The fields of `CanvasWidget` (`src/main.py`, `__init__`). -/
structure CanvasWidget where
  width : Nat
  height : Nat
  image : QImage
  current_tool : String
  pen_color : QColor
  highlight_color : QColor
  eraser_color : QColor
  pen_width : Nat
  highlighter_width : Nat
  eraser_width : Nat
  drawing : Bool
  last_point : QPoint

/-- `CanvasWidget.__init__(width, height)`: a white image of the given
size, pen tool selected, black pen, yellow translucent highlighter, white
eraser, widths 3/20/20, no stroke in progress. -/
def CanvasWidget.init (width height : Nat) : CanvasWidget :=
  { width := width
    height := height
    image := fillImage qtWhite
    current_tool := "pen"
    pen_color := qcolorRGB 0 0 0
    highlight_color := ⟨255, 255, 0, 128⟩
    eraser_color := qcolorRGB 255 255 255
    pen_width := 3
    highlighter_width := 20
    eraser_width := 20
    drawing := false
    last_point := ⟨0, 0⟩ }

/-- `CanvasWidget.setTool`. -/
def CanvasWidget.setTool (st : CanvasWidget) (tool_name : String) : CanvasWidget :=
  { st with current_tool := tool_name }

/-- `CanvasWidget.setPenColor`: store the color and recompute the
highlighter color as the same RGB at alpha 128. -/
def CanvasWidget.setPenColor (st : CanvasWidget) (color : QColor) : CanvasWidget :=
  { st with
    pen_color := color
    highlight_color := ⟨color.red, color.green, color.blue, 128⟩ }

/-- `CanvasWidget.mousePressEvent`. -/
def CanvasWidget.mousePressEvent (st : CanvasWidget) (ev : MouseEvent) : CanvasWidget :=
  if ev.button = MouseButton.left then
    { st with drawing := true, last_point := ev.pos }
  else st

/-- `CanvasWidget.mouseMoveEvent`: while the left button is held and a
stroke is in progress, build the pen for the current tool (eraser is the
fallback branch for any other tool name) and stroke a segment from the
last point to the event position, then record the event position. -/
def CanvasWidget.mouseMoveEvent (drawLine : DrawLine) (st : CanvasWidget)
    (ev : MouseEvent) : CanvasWidget :=
  if ev.leftHeld && st.drawing then
    let pen : QPen :=
      if st.current_tool = "pen" then
        ⟨st.pen_color, st.pen_width, PenStyle.solidLine, PenCapStyle.roundCap,
          PenJoinStyle.roundJoin⟩
      else if st.current_tool = "highlighter" then
        ⟨st.highlight_color, st.highlighter_width, PenStyle.solidLine,
          PenCapStyle.roundCap, PenJoinStyle.roundJoin⟩
      else
        ⟨st.eraser_color, st.eraser_width, PenStyle.solidLine, PenCapStyle.roundCap,
          PenJoinStyle.roundJoin⟩
    { st with image := drawLine st.image pen st.last_point ev.pos, last_point := ev.pos }
  else st

/-- `CanvasWidget.mouseReleaseEvent`. -/
def CanvasWidget.mouseReleaseEvent (st : CanvasWidget) (ev : MouseEvent) : CanvasWidget :=
  if ev.button = MouseButton.left then { st with drawing := false } else st

/-- `CanvasWidget.clearCanvas`: refill the image with white. -/
def CanvasWidget.clearCanvas (st : CanvasWidget) : CanvasWidget :=
  { st with image := fillImage qtWhite }

/-- The operations the rest of the application invokes on the canvas. -/
inductive CanvasOp where
  | setTool (name : String)
  | setPenColor (c : QColor)
  | clearCanvas
  | mousePress (ev : MouseEvent)
  | mouseMove (ev : MouseEvent)
  | mouseRelease (ev : MouseEvent)

/-- Dispatch one canvas operation to its handler. -/
def canvasStep (drawLine : DrawLine) (st : CanvasWidget) : CanvasOp → CanvasWidget
  | CanvasOp.setTool name => st.setTool name
  | CanvasOp.setPenColor c => st.setPenColor c
  | CanvasOp.clearCanvas => st.clearCanvas
  | CanvasOp.mousePress ev => st.mousePressEvent ev
  | CanvasOp.mouseMove ev => st.mouseMoveEvent drawLine ev
  | CanvasOp.mouseRelease ev => st.mouseReleaseEvent ev

/-- Run a sequence of canvas operations. -/
def runCanvas (drawLine : DrawLine) (st : CanvasWidget) (ops : List CanvasOp) :
    CanvasWidget :=
  ops.foldl (canvasStep drawLine) st

/-- Does an operation list contain a `setPenColor` call? -/
def isSetPenColorOp : CanvasOp → Bool
  | CanvasOp.setPenColor _ => true
  | _ => false

def hasSetPenColor (ops : List CanvasOp) : Bool :=
  ops.any isSetPenColorOp

/-! ### Helper lemmas about the auto-evaluator -/

theorem applyOps_append (st : EditorState) (l1 l2 : List EditorOp) :
    applyOps st (l1 ++ l2) = applyOps (applyOps st l1) l2 := by
  simp [applyOps]

/-- On the success path, the whole effect of `autoEvaluateTypedMath`:
the text becomes the joined lines with the last line rewritten, the cursor
is at the end, and signals end up unblocked. -/
theorem autoEval_text_eq (sympify : List Char → Option (List Char)) (st : EditorState)
    (last r : List Char)
    (hlast : (st.text.splitOn '\n').getLast? = some last)
    (hend : pyEndsWithEq last = true)
    (hne : (pyStrip last.dropLast).isEmpty = false)
    (heval : sympify (pyStrip last.dropLast) = some r) :
    autoEvaluateTypedMath sympify st =
      { text := List.intercalate ['\n']
          ((st.text.splitOn '\n').dropLast ++ [pyStrip last.dropLast ++ '=' :: r])
        cursor := (List.intercalate ['\n']
          ((st.text.splitOn '\n').dropLast ++ [pyStrip last.dropLast ++ '=' :: r])).length
        blocked := false } := by
  simp [autoEvaluateTypedMath, autoEvalOps, autoEvalBody, hlast, hend, hne, heval,
    applyOps, applyOp]

/-- Whenever one of the three bail-out conditions holds, the handler body
performs no editor operation. -/
theorem autoEvalBody_eq_nil (sympify : List Char → Option (List Char)) (text : List Char)
    (last : List Char)
    (hlast : (text.splitOn '\n').getLast? = some last)
    (h : pyEndsWithEq last = false ∨ (pyStrip last.dropLast).isEmpty = true ∨
      sympify (pyStrip last.dropLast) = none) :
    autoEvalBody sympify text = [] := by
  rcases h with h | h | h
  · simp [autoEvalBody, hlast, h]
  · cases hend : pyEndsWithEq last
    · simp [autoEvalBody, hlast, hend]
    · simp [autoEvalBody, hlast, hend, h]
  · cases hend : pyEndsWithEq last
    · simp [autoEvalBody, hlast, hend]
    · cases hne : (pyStrip last.dropLast).isEmpty
      · simp [autoEvalBody, hlast, hend, hne, h]
      · simp [autoEvalBody, hlast, hend, hne]

/-- The handler body is either empty or exactly a rewrite followed by a
cursor move. -/
theorem autoEvalBody_shape (sympify : List Char → Option (List Char)) (text : List Char) :
    autoEvalBody sympify text = [] ∨
    ∃ s, autoEvalBody sympify text =
      [EditorOp.setPlainText s, EditorOp.moveCursorEnd] := by
  simp only [autoEvalBody]
  split
  · exact Or.inl rfl
  · split
    · split
      · exact Or.inl rfl
      · split
        · exact Or.inr ⟨_, rfl⟩
        · exact Or.inl rfl
    · exact Or.inl rfl

/-! ### Claims about the auto-evaluator -/

/-- C1: for every notes text whose last line ends in `=` with a non-empty
stripped expression `E` that the symbolic-math evaluator accepts with
result `r`, the text-change handler rewrites the last line to `E=r`
(joining all lines back with newlines) and moves the cursor to the end of
the text. -/
theorem autoEval_success (sympify : List Char → Option (List Char)) (st : EditorState)
    (last r : List Char)
    (hlast : (st.text.splitOn '\n').getLast? = some last)
    (hend : pyEndsWithEq last = true)
    (hne : (pyStrip last.dropLast).isEmpty = false)
    (heval : sympify (pyStrip last.dropLast) = some r) :
    (autoEvaluateTypedMath sympify st).text =
      List.intercalate ['\n']
        ((st.text.splitOn '\n').dropLast ++ [pyStrip last.dropLast ++ '=' :: r]) ∧
    (autoEvaluateTypedMath sympify st).cursor =
      (autoEvaluateTypedMath sympify st).text.length := by
  rw [autoEval_text_eq sympify st last r hlast hend hne heval]
  exact ⟨rfl, rfl⟩

def demoSympify : List Char → Option (List Char) :=
  fun e => if e = ['2', '+', '2'] then some ['4'] else none

def demoSt : EditorState := ⟨['2', '+', '2', '='], 0, false⟩

theorem autoEval_success_witness :
    (demoSt.text.splitOn '\n').getLast? = some ['2', '+', '2', '='] ∧
    pyEndsWithEq ['2', '+', '2', '='] = true ∧
    (pyStrip (['2', '+', '2', '=']).dropLast).isEmpty = false ∧
    demoSympify (pyStrip (['2', '+', '2', '=']).dropLast) = some ['4'] ∧
    ((autoEvaluateTypedMath demoSympify demoSt).text =
      List.intercalate ['\n']
        ((demoSt.text.splitOn '\n').dropLast ++
          [pyStrip (['2', '+', '2', '=']).dropLast ++ '=' :: ['4']]) ∧
    (autoEvaluateTypedMath demoSympify demoSt).cursor =
      (autoEvaluateTypedMath demoSympify demoSt).text.length) :=
  ⟨by decide, by decide, by decide, by decide,
    autoEval_success demoSympify demoSt (['2', '+', '2', '=']) (['4'])
      (by decide) (by decide) (by decide) (by decide)⟩

/-- C2: if the last line does not end with `=`, or the stripped expression
is empty, or the evaluation fails (the exception path, modelled by
`none`), the handler leaves the notes text unchanged (and, being a total
function, it returns normally: the caught exception never escapes). -/
theorem autoEval_noop (sympify : List Char → Option (List Char)) (st : EditorState)
    (last : List Char)
    (hlast : (st.text.splitOn '\n').getLast? = some last)
    (h : pyEndsWithEq last = false ∨ (pyStrip last.dropLast).isEmpty = true ∨
      sympify (pyStrip last.dropLast) = none) :
    (autoEvaluateTypedMath sympify st).text = st.text := by
  unfold autoEvaluateTypedMath autoEvalOps
  rw [autoEvalBody_eq_nil sympify st.text last hlast h]
  rfl

def demoSympifyNone : List Char → Option (List Char) := fun _ => none

def demoStFoo : EditorState := ⟨['f', 'o', 'o', '='], 0, false⟩

theorem autoEval_noop_witness :
    (demoStFoo.text.splitOn '\n').getLast? = some ['f', 'o', 'o', '='] ∧
    (pyEndsWithEq ['f', 'o', 'o', '='] = false ∨
      (pyStrip (['f', 'o', 'o', '=']).dropLast).isEmpty = true ∨
      demoSympifyNone (pyStrip (['f', 'o', 'o', '=']).dropLast) = none) ∧
    (autoEvaluateTypedMath demoSympifyNone demoStFoo).text = demoStFoo.text :=
  ⟨by decide, by decide,
    autoEval_noop demoSympifyNone demoStFoo (['f', 'o', 'o', '='])
      (by decide) (by decide)⟩

/-- C9: the operation trace of the handler starts by blocking the editor's
change signals, ends by unblocking them, and performs no other signal
toggling in between, on the success path and on every bail-out path alike;
in particular every text rewrite happens while signals are blocked, so the
handler never re-triggers itself, and signals are re-enabled when it
returns. -/
theorem autoEval_blockSignals_discipline (sympify : List Char → Option (List Char))
    (st : EditorState) :
    (∃ mid, autoEvalOps sympify st.text =
        EditorOp.blockSignals true :: (mid ++ [EditorOp.blockSignals false]) ∧
        ∀ op ∈ mid, ∀ b, op ≠ EditorOp.blockSignals b) ∧
    (autoEvaluateTypedMath sympify st).blocked = false := by
  constructor
  · refine ⟨autoEvalBody sympify st.text, rfl, ?_⟩
    intro op hop b
    rcases autoEvalBody_shape sympify st.text with h | ⟨s, h⟩
    · rw [h] at hop
      simp at hop
    · rw [h] at hop
      simp only [List.mem_cons, List.not_mem_nil, or_false] at hop
      rcases hop with rfl | rfl <;> simp
  · unfold autoEvaluateTypedMath autoEvalOps
    rw [← List.cons_append, applyOps_append]
    rfl

/-- No piece produced by `splitOnP` contains an element satisfying the
predicate. -/
theorem not_mem_of_mem_splitOnP (p : Char → Bool) (xs : List Char) :
    ∀ l ∈ xs.splitOnP p, ∀ a ∈ l, p a = false := by
  induction xs with
  | nil =>
    intro l hl a ha
    rw [List.splitOnP_nil] at hl
    simp only [List.mem_singleton] at hl
    subst hl
    simp at ha
  | cons x xs ih =>
    intro l hl a ha
    rw [List.splitOnP_cons] at hl
    by_cases hx : p x = true
    · rw [if_pos hx] at hl
      rcases List.mem_cons.mp hl with rfl | hl
      · simp at ha
      · exact ih l hl a ha
    · rw [if_neg hx] at hl
      rcases hsp : xs.splitOnP p with _ | ⟨hd, tl⟩
      · exact absurd hsp (List.splitOnP_ne_nil p xs)
      · rw [hsp] at hl
        simp only [List.modifyHead] at hl
        rcases List.mem_cons.mp hl with rfl | hl
        · rcases List.mem_cons.mp ha with rfl | ha
          · simpa using hx
          · refine ih hd ?_ a ha
            rw [hsp]
            exact List.mem_cons_self hd tl
        · refine ih l ?_ a ha
          rw [hsp]
          exact List.mem_cons.mpr (Or.inr hl)

/-- The newline separator never occurs inside a line produced by
splitting on newlines. -/
theorem splitOn_sep_not_mem (xs l : List Char) (hl : l ∈ xs.splitOn '\n') :
    '\n' ∉ l := by
  intro hmem
  have h := not_mem_of_mem_splitOnP (· == '\n') xs l hl '\n' hmem
  simp at h

/-- Stripping whitespace only removes characters. -/
theorem pyStrip_subset (s : List Char) : pyStrip s ⊆ s := by
  intro a ha
  unfold pyStrip at ha
  rw [List.mem_reverse] at ha
  have h1 := (List.dropWhile_sublist pyIsSpace).subset ha
  rw [List.mem_reverse] at h1
  exact (List.dropWhile_sublist pyIsSpace).subset h1

/-- The last line of a text is one of its lines. -/
theorem getLast_line_mem (text last : List Char)
    (hlast : (text.splitOn '\n').getLast? = some last) :
    last ∈ text.splitOn '\n' := by
  rcases List.mem_getLast?_eq_getLast (Option.mem_def.mpr hlast) with ⟨h, rfl⟩
  exact List.getLast_mem h

/-- C7: on a successful rewrite, splitting the resulting text into lines
gives exactly the original lines with only the last one replaced by
`E=r`; every line other than the last is unchanged.  (The abstract
evaluator result `r` is assumed newline-free, as `str(sympy.sympify(...))`
is.) -/
theorem autoEval_preserves_prefix_lines (sympify : List Char → Option (List Char))
    (st : EditorState) (last r : List Char)
    (hlast : (st.text.splitOn '\n').getLast? = some last)
    (hend : pyEndsWithEq last = true)
    (hne : (pyStrip last.dropLast).isEmpty = false)
    (heval : sympify (pyStrip last.dropLast) = some r)
    (hr : '\n' ∉ r) :
    (autoEvaluateTypedMath sympify st).text.splitOn '\n' =
      (st.text.splitOn '\n').dropLast ++ [pyStrip last.dropLast ++ '=' :: r] := by
  rw [autoEval_text_eq sympify st last r hlast hend hne heval]
  apply List.splitOn_intercalate
  · intro l hl
    rcases List.mem_append.mp hl with hl | hl
    · exact splitOn_sep_not_mem st.text l (List.dropLast_subset _ hl)
    · rw [List.mem_singleton] at hl
      subst hl
      intro hmem
      rcases List.mem_append.mp hmem with hmem | hmem
      · have h1 : '\n' ∈ last := List.dropLast_subset _ (pyStrip_subset _ hmem)
        exact splitOn_sep_not_mem st.text last (getLast_line_mem st.text last hlast) h1
      · rcases List.mem_cons.mp hmem with h | h
        · exact absurd h (by decide)
        · exact hr h
  · simp

theorem autoEval_preserves_prefix_lines_witness :
    (demoSt.text.splitOn '\n').getLast? = some ['2', '+', '2', '='] ∧
    pyEndsWithEq ['2', '+', '2', '='] = true ∧
    (pyStrip (['2', '+', '2', '=']).dropLast).isEmpty = false ∧
    demoSympify (pyStrip (['2', '+', '2', '=']).dropLast) = some ['4'] ∧
    '\n' ∉ (['4'] : List Char) ∧
    (autoEvaluateTypedMath demoSympify demoSt).text.splitOn '\n' =
      (demoSt.text.splitOn '\n').dropLast ++
        [pyStrip (['2', '+', '2', '=']).dropLast ++ '=' :: ['4']] :=
  ⟨by decide, by decide, by decide, by decide, by decide,
    autoEval_preserves_prefix_lines demoSympify demoSt (['2', '+', '2', '=']) (['4'])
      (by decide) (by decide) (by decide) (by decide) (by decide)⟩

/-! ### Helper lemmas about the canvas -/

theorem runCanvas_cons (dl : DrawLine) (st : CanvasWidget) (op : CanvasOp)
    (ops : List CanvasOp) :
    runCanvas dl st (op :: ops) = runCanvas dl (canvasStep dl st op) ops := rfl

/-- No canvas operation ever touches the eraser preset or the widget
dimensions. -/
theorem canvasStep_consts (dl : DrawLine) (st : CanvasWidget) (op : CanvasOp) :
    (canvasStep dl st op).eraser_color = st.eraser_color ∧
    (canvasStep dl st op).eraser_width = st.eraser_width ∧
    (canvasStep dl st op).width = st.width ∧
    (canvasStep dl st op).height = st.height := by
  cases op with
  | setTool name => exact ⟨rfl, rfl, rfl, rfl⟩
  | setPenColor c => exact ⟨rfl, rfl, rfl, rfl⟩
  | clearCanvas => exact ⟨rfl, rfl, rfl, rfl⟩
  | mousePress ev =>
    simp only [canvasStep, CanvasWidget.mousePressEvent]
    split <;> exact ⟨rfl, rfl, rfl, rfl⟩
  | mouseMove ev =>
    simp only [canvasStep, CanvasWidget.mouseMoveEvent]
    split <;> exact ⟨rfl, rfl, rfl, rfl⟩
  | mouseRelease ev =>
    simp only [canvasStep, CanvasWidget.mouseReleaseEvent]
    split <;> exact ⟨rfl, rfl, rfl, rfl⟩

theorem runCanvas_consts (dl : DrawLine) (ops : List CanvasOp) :
    ∀ st : CanvasWidget,
      (runCanvas dl st ops).eraser_color = st.eraser_color ∧
      (runCanvas dl st ops).eraser_width = st.eraser_width ∧
      (runCanvas dl st ops).width = st.width ∧
      (runCanvas dl st ops).height = st.height := by
  induction ops with
  | nil => intro st; exact ⟨rfl, rfl, rfl, rfl⟩
  | cons op ops ih =>
    intro st
    rw [runCanvas_cons]
    rcases ih (canvasStep dl st op) with ⟨h1, h2, h3, h4⟩
    rcases canvasStep_consts dl st op with ⟨g1, g2, g3, g4⟩
    exact ⟨h1.trans g1, h2.trans g2, h3.trans g3, h4.trans g4⟩

/-- The highlighter-tracks-pen invariant. -/
def HlInv (st : CanvasWidget) : Prop :=
  st.highlight_color =
    ⟨st.pen_color.red, st.pen_color.green, st.pen_color.blue, 128⟩

theorem canvasStep_HlInv (dl : DrawLine) (st : CanvasWidget) (op : CanvasOp)
    (h : HlInv st) : HlInv (canvasStep dl st op) := by
  cases op with
  | setTool name => exact h
  | setPenColor c => rfl
  | clearCanvas => exact h
  | mousePress ev =>
    simp only [HlInv, canvasStep, CanvasWidget.mousePressEvent]
    split <;> exact h
  | mouseMove ev =>
    simp only [HlInv, canvasStep, CanvasWidget.mouseMoveEvent]
    split <;> exact h
  | mouseRelease ev =>
    simp only [HlInv, canvasStep, CanvasWidget.mouseReleaseEvent]
    split <;> exact h

theorem runCanvas_HlInv (dl : DrawLine) (ops : List CanvasOp) :
    ∀ st : CanvasWidget, HlInv st → HlInv (runCanvas dl st ops) := by
  induction ops with
  | nil => intro st h; exact h
  | cons op ops ih => intro st h; exact ih _ (canvasStep_HlInv dl st op h)

theorem canvasStep_highlight_frame (dl : DrawLine) (st : CanvasWidget) (op : CanvasOp)
    (hop : isSetPenColorOp op = false) :
    (canvasStep dl st op).highlight_color = st.highlight_color := by
  cases op with
  | setTool name => rfl
  | setPenColor c => simp [isSetPenColorOp] at hop
  | clearCanvas => rfl
  | mousePress ev =>
    simp only [canvasStep, CanvasWidget.mousePressEvent]
    split <;> rfl
  | mouseMove ev =>
    simp only [canvasStep, CanvasWidget.mouseMoveEvent]
    split <;> rfl
  | mouseRelease ev =>
    simp only [canvasStep, CanvasWidget.mouseReleaseEvent]
    split <;> rfl

/-- Along any run, the highlighter color is the current pen color at
alpha 128 once a `setPenColor` has happened, and is otherwise whatever it
was at the start of the run. -/
theorem runCanvas_highlight_aux (dl : DrawLine) (ops : List CanvasOp) :
    ∀ st : CanvasWidget,
      (runCanvas dl st ops).highlight_color =
        if hasSetPenColor ops = true then
          ⟨(runCanvas dl st ops).pen_color.red, (runCanvas dl st ops).pen_color.green,
            (runCanvas dl st ops).pen_color.blue, 128⟩
        else st.highlight_color := by
  induction ops with
  | nil =>
    intro st
    simp [hasSetPenColor, runCanvas]
  | cons op ops ih =>
    intro st
    cases hop : isSetPenColorOp op with
    | false =>
      have hh : hasSetPenColor (op :: ops) = hasSetPenColor ops := by
        simp [hasSetPenColor, hop]
      rw [runCanvas_cons, hh, ih (canvasStep dl st op),
        canvasStep_highlight_frame dl st op hop]
    | true =>
      cases op with
      | setTool name => simp [isSetPenColorOp] at hop
      | clearCanvas => simp [isSetPenColorOp] at hop
      | mousePress ev => simp [isSetPenColorOp] at hop
      | mouseMove ev => simp [isSetPenColorOp] at hop
      | mouseRelease ev => simp [isSetPenColorOp] at hop
      | setPenColor c =>
        have hh : hasSetPenColor (CanvasOp.setPenColor c :: ops) = true := by
          simp [hasSetPenColor, isSetPenColorOp]
        rw [runCanvas_cons, hh, if_pos rfl]
        exact runCanvas_HlInv dl ops _ rfl

/-! ### Claims about the canvas -/

/-- C3 counterexample: the claimed invariant already fails in the initial
state after construction, where the pen color is black but the
highlighter color is the fixed yellow `(255, 255, 0)` at alpha 128, not
black at alpha 128. -/
theorem canvas_highlight_invariant_counterexample :
    ¬ ((CanvasWidget.init 2000 2000).highlight_color =
        ⟨(CanvasWidget.init 2000 2000).pen_color.red,
          (CanvasWidget.init 2000 2000).pen_color.green,
          (CanvasWidget.init 2000 2000).pen_color.blue, 128⟩ ∧
      (CanvasWidget.init 2000 2000).eraser_color = qtWhite) := by
  decide

/-- C3 (amended): in every reachable state of the drawing surface the
eraser color equals the white canvas background, and the highlighter
color equals the current base pen color with alpha reduced to 128 in
every reachable state in which `setPenColor` has been called at least
once; before any `setPenColor` call it is the fixed initial yellow
`(255, 255, 0, 128)`, regardless of the (black) initial pen color. -/
theorem canvas_colors_invariant_amended (dl : DrawLine) (ops : List CanvasOp) :
    (runCanvas dl (CanvasWidget.init 2000 2000) ops).eraser_color = qtWhite ∧
    (runCanvas dl (CanvasWidget.init 2000 2000) ops).highlight_color =
      (if hasSetPenColor ops = true then
        ⟨(runCanvas dl (CanvasWidget.init 2000 2000) ops).pen_color.red,
          (runCanvas dl (CanvasWidget.init 2000 2000) ops).pen_color.green,
          (runCanvas dl (CanvasWidget.init 2000 2000) ops).pen_color.blue, 128⟩
      else ⟨255, 255, 0, 128⟩) := by
  constructor
  · exact (runCanvas_consts dl ops (CanvasWidget.init 2000 2000)).1
  · exact runCanvas_highlight_aux dl ops (CanvasWidget.init 2000 2000)

/-- C4: `setPenColor c` makes the pen color exactly `c` and the
highlighter color the same RGB components at alpha 128. -/
theorem setPenColor_updates (st : CanvasWidget) (c : QColor) :
    (st.setPenColor c).pen_color = c ∧
    (st.setPenColor c).highlight_color = ⟨c.red, c.green, c.blue, 128⟩ :=
  ⟨rfl, rfl⟩

/-- C6: `setPenColor` changes nothing besides the pen and highlighter
colors: the eraser color, the three tool widths, the current tool
selector, and the canvas pixel buffer (and the remaining fields) are all
unchanged. -/
theorem setPenColor_frame (st : CanvasWidget) (c : QColor) :
    (st.setPenColor c).eraser_color = st.eraser_color ∧
    (st.setPenColor c).pen_width = st.pen_width ∧
    (st.setPenColor c).highlighter_width = st.highlighter_width ∧
    (st.setPenColor c).eraser_width = st.eraser_width ∧
    (st.setPenColor c).current_tool = st.current_tool ∧
    (st.setPenColor c).image = st.image ∧
    (st.setPenColor c).width = st.width ∧
    (st.setPenColor c).height = st.height ∧
    (st.setPenColor c).drawing = st.drawing ∧
    (st.setPenColor c).last_point = st.last_point :=
  ⟨rfl, rfl, rfl, rfl, rfl, rfl, rfl, rfl, rfl, rfl⟩

/-- C5: from any state reachable by any operation sequence (strokes
included, whatever the rasterizer does), `clearCanvas` yields the pixel
buffer produced at construction — every pixel the white background — and
the buffer dimensions are still the construction dimensions. -/
theorem clearCanvas_resets (dl : DrawLine) (ops : List CanvasOp) :
    ((runCanvas dl (CanvasWidget.init 2000 2000) ops).clearCanvas).image =
      (CanvasWidget.init 2000 2000).image ∧
    (∀ p, ((runCanvas dl (CanvasWidget.init 2000 2000) ops).clearCanvas).image p = qtWhite) ∧
    ((runCanvas dl (CanvasWidget.init 2000 2000) ops).clearCanvas).width =
      (CanvasWidget.init 2000 2000).width ∧
    ((runCanvas dl (CanvasWidget.init 2000 2000) ops).clearCanvas).height =
      (CanvasWidget.init 2000 2000).height := by
  refine ⟨rfl, fun p => rfl, ?_, ?_⟩
  · exact (runCanvas_consts dl ops (CanvasWidget.init 2000 2000)).2.2.1
  · exact (runCanvas_consts dl ops (CanvasWidget.init 2000 2000)).2.2.2

/-- C8: on a pointer move with the left button held while a stroke is in
progress, the handler strokes a segment from the last recorded point to
the event position with the active tool's color and width, solid line,
round cap and round join, and records the event position as the new last
point. -/
theorem mouseMove_draws_segment (dl : DrawLine) (st : CanvasWidget) (ev : MouseEvent)
    (hdraw : st.drawing = true) (hheld : ev.leftHeld = true) :
    (st.mouseMoveEvent dl ev).image =
      dl st.image
        (if st.current_tool = "pen" then
          ⟨st.pen_color, st.pen_width, PenStyle.solidLine, PenCapStyle.roundCap,
            PenJoinStyle.roundJoin⟩
        else if st.current_tool = "highlighter" then
          ⟨st.highlight_color, st.highlighter_width, PenStyle.solidLine,
            PenCapStyle.roundCap, PenJoinStyle.roundJoin⟩
        else
          ⟨st.eraser_color, st.eraser_width, PenStyle.solidLine, PenCapStyle.roundCap,
            PenJoinStyle.roundJoin⟩)
        st.last_point ev.pos ∧
    (st.mouseMoveEvent dl ev).last_point = ev.pos := by
  unfold CanvasWidget.mouseMoveEvent
  rw [hdraw, hheld]
  exact ⟨rfl, rfl⟩

def demoDrawLine : DrawLine := fun img _ _ _ => img

def demoPressEv : MouseEvent := ⟨MouseButton.left, true, ⟨1, 1⟩⟩

def demoMoveEv : MouseEvent := ⟨MouseButton.left, true, ⟨2, 3⟩⟩

def demoCanvasSt : CanvasWidget :=
  (CanvasWidget.init 2000 2000).mousePressEvent demoPressEv

theorem mouseMove_draws_segment_witness :
    demoCanvasSt.drawing = true ∧ demoMoveEv.leftHeld = true ∧
    ((demoCanvasSt.mouseMoveEvent demoDrawLine demoMoveEv).image =
      demoDrawLine demoCanvasSt.image
        (if demoCanvasSt.current_tool = "pen" then
          ⟨demoCanvasSt.pen_color, demoCanvasSt.pen_width, PenStyle.solidLine,
            PenCapStyle.roundCap, PenJoinStyle.roundJoin⟩
        else if demoCanvasSt.current_tool = "highlighter" then
          ⟨demoCanvasSt.highlight_color, demoCanvasSt.highlighter_width,
            PenStyle.solidLine, PenCapStyle.roundCap, PenJoinStyle.roundJoin⟩
        else
          ⟨demoCanvasSt.eraser_color, demoCanvasSt.eraser_width, PenStyle.solidLine,
            PenCapStyle.roundCap, PenJoinStyle.roundJoin⟩)
        demoCanvasSt.last_point demoMoveEv.pos ∧
    (demoCanvasSt.mouseMoveEvent demoDrawLine demoMoveEv).last_point = demoMoveEv.pos) :=
  ⟨by decide, by decide,
    mouseMove_draws_segment demoDrawLine demoCanvasSt demoMoveEv (by decide) (by decide)⟩

/-- C10: `setTool` accepts and stores any string; on a subsequent stroke
from any reachable state, any stored tool name other than exactly `pen`
or `highlighter` (misspellings included) falls through to the eraser
preset: white color and width 20. -/
theorem setTool_fallback_eraser (dl : DrawLine) (ops : List CanvasOp) (s : String)
    (ev : MouseEvent)
    (hs1 : s ≠ "pen") (hs2 : s ≠ "highlighter")
    (hdraw : (runCanvas dl (CanvasWidget.init 2000 2000) ops).drawing = true)
    (hheld : ev.leftHeld = true) :
    ((runCanvas dl (CanvasWidget.init 2000 2000) ops).setTool s).current_tool = s ∧
    (((runCanvas dl (CanvasWidget.init 2000 2000) ops).setTool s).mouseMoveEvent dl
        ev).image =
      dl (runCanvas dl (CanvasWidget.init 2000 2000) ops).image
        ⟨qtWhite, 20, PenStyle.solidLine, PenCapStyle.roundCap, PenJoinStyle.roundJoin⟩
        (runCanvas dl (CanvasWidget.init 2000 2000) ops).last_point ev.pos ∧
    (((runCanvas dl (CanvasWidget.init 2000 2000) ops).setTool s).mouseMoveEvent dl
        ev).last_point = ev.pos := by
  have hc := runCanvas_consts dl ops (CanvasWidget.init 2000 2000)
  refine ⟨rfl, ?_, ?_⟩
  · simp only [CanvasWidget.mouseMoveEvent, CanvasWidget.setTool, hheld, hdraw,
      Bool.and_self, if_true, if_neg hs1, if_neg hs2]
    rw [hc.1, hc.2.1]
    rfl
  · simp only [CanvasWidget.mouseMoveEvent, CanvasWidget.setTool, hheld, hdraw,
      Bool.and_self, if_true]

theorem setTool_fallback_eraser_witness :
    ("erazer" : String) ≠ "pen" ∧ ("erazer" : String) ≠ "highlighter" ∧
    (runCanvas demoDrawLine (CanvasWidget.init 2000 2000)
      [CanvasOp.mousePress demoPressEv]).drawing = true ∧
    demoMoveEv.leftHeld = true ∧
    (((runCanvas demoDrawLine (CanvasWidget.init 2000 2000)
        [CanvasOp.mousePress demoPressEv]).setTool "erazer").current_tool = "erazer" ∧
    (((runCanvas demoDrawLine (CanvasWidget.init 2000 2000)
        [CanvasOp.mousePress demoPressEv]).setTool "erazer").mouseMoveEvent demoDrawLine
        demoMoveEv).image =
      demoDrawLine
        (runCanvas demoDrawLine (CanvasWidget.init 2000 2000)
          [CanvasOp.mousePress demoPressEv]).image
        ⟨qtWhite, 20, PenStyle.solidLine, PenCapStyle.roundCap, PenJoinStyle.roundJoin⟩
        (runCanvas demoDrawLine (CanvasWidget.init 2000 2000)
          [CanvasOp.mousePress demoPressEv]).last_point demoMoveEv.pos ∧
    (((runCanvas demoDrawLine (CanvasWidget.init 2000 2000)
        [CanvasOp.mousePress demoPressEv]).setTool "erazer").mouseMoveEvent demoDrawLine
        demoMoveEv).last_point = demoMoveEv.pos) :=
  ⟨by decide, by decide, by decide, by decide,
    setTool_fallback_eraser demoDrawLine [CanvasOp.mousePress demoPressEv] "erazer"
      demoMoveEv (by decide) (by decide) (by decide) (by decide)⟩
